import Mathlib

/-!
Verification of the user service of the "aula2" CRUD API.

The embedded code is `src/services/userService.js` (the business core:
`getAllUsers`, `getUserById`, `createUser`, `updateUser`, `deleteUser`),
together with the pieces of JavaScript semantics it relies on (truthiness,
`x || d` defaulting, `Number`/`isNaN` coercion and `parseInt` on route
parameters) and the shape of the `users` table from the Prisma migration
`20251019150416_init_user_model`.

The database is modelled as an explicit state (`DB`): a list of rows plus
the SERIAL id sequence.  Each service operation is a pure function from the
state (and, where relevant, a timestamp `now` standing for the clock the
database uses for `createdAt` / `updatedAt`) to a result and the new state;
a thrown service error is an `Except.error` carrying the message class the
controller dispatches on, and the state component of an error outcome is
the unchanged input state, exactly as in the source where every `throw`
happens before the single write.

Numbers coming from route parameters are strings; `Number(s)` is modelled
on the decimal fragment `[+-]? digits+ ('.' digits*)?` (after trimming,
with the empty string converting to 0) as an exact scaled decimal.  Every
use the service makes of the coerced value (the `isNaN` test and the
comparison with 0) is insensitive to binary floating point rounding, so
the exact model is observationally faithful on this fragment; strings
outside the fragment are modelled as NaN.
-/

namespace UserApi

/-- A JSON value for the `foto` request field, the one field where the
service distinguishes absent (`undefined`) from JSON `null`. -/
inductive JVal where
  | undef
  | null
  | str (s : String)
deriving DecidableEq, Repr

/-- JS truthiness of an optional string field: `undefined` and the empty
string are falsy, every other string is truthy. -/
def truthyO : Option String → Bool
  | none => false
  | some s => s != ""

/-- JS truthiness of a `JVal`: `undefined`, `null` and `""` are falsy. -/
def truthyJ : JVal → Bool
  | .str s => s != ""
  | _ => false

/-- JS `x || d` on an optional string field, as used for the create-time
defaulting `papel || 'PROFESSOR'`. -/
def orDefault (o : Option String) (d : String) : String :=
  match o with
  | some s => if s = "" then d else s
  | none => d

/-- JS `foto || null` at create time: a truthy string is kept, every falsy
value (absent, null, empty string) becomes the SQL NULL. -/
def jsOrNull : JVal → Option String
  | .str s => if s = "" then none else some s
  | _ => none

/-- An exact decimal number `num / 10 ^ scale`, the value of a JS numeric
string of the fragment handled by `parseDec`.  Its sign is the sign of
`num`, which is all the service ever inspects. -/
structure DecNum where
  num : Int
  scale : Nat
deriving DecidableEq, Repr

/-- Numeric value of a list of decimal digit characters. -/
def digitsVal (ds : List Char) : Nat :=
  ds.foldl (fun acc c => 10 * acc + (c.toNat - '0'.toNat)) 0

/-- Split a character list into its longest prefix of decimal digits and
the remainder. -/
def takeDigits (cs : List Char) : List Char × List Char :=
  (cs.takeWhile (fun c => c.isDigit), cs.dropWhile (fun c => c.isDigit))

/-- Strip leading and trailing whitespace, as JS ToNumber and parseInt do
before reading the digits. -/
def trimList (cs : List Char) : List Char :=
  ((cs.dropWhile (fun c => c.isWhitespace)).reverse.dropWhile
    (fun c => c.isWhitespace)).reverse

/-- JS `Number` (ToNumber) on a trimmed, non-empty character list,
restricted to the decimal fragment `[+-]? digits+ ('.' digits*)?`; every
other shape is NaN (`none`).  The value of `[+-]? I '.' F` is
`± (I * 10 ^ |F| + F) / 10 ^ |F|`. -/
def parseDec (cs : List Char) : Option DecNum :=
  let sgncs : Int × List Char :=
    match cs with
    | '-' :: t => (-1, t)
    | '+' :: t => (1, t)
    | _ => (1, cs)
  let ds := (takeDigits sgncs.2).1
  let rest := (takeDigits sgncs.2).2
  if ds = [] then none
  else
    match rest with
    | [] => some ⟨sgncs.1 * digitsVal ds, 0⟩
    | '.' :: t =>
      let fs := (takeDigits t).1
      if (takeDigits t).2 = [] then
        some ⟨sgncs.1 * (digitsVal ds * 10 ^ fs.length + digitsVal fs), fs.length⟩
      else none
    | _ => none

/-- JS `Number(s)` for a string: trim, the empty string converts to 0,
otherwise `parseDec`; `none` models NaN. -/
def toNumber? (s : String) : Option DecNum :=
  if trimList s.data = [] then some ⟨0, 0⟩ else parseDec (trimList s.data)

/-- JS `parseInt(s)` (implicit radix 10, decimal fragment): trim, optional
sign, then the value of the longest digit prefix; `none` models NaN (no
leading digit). -/
def parseIntJS (s : String) : Option Int :=
  let sgncs : Int × List Char :=
    match trimList s.data with
    | '-' :: t => (-1, t)
    | '+' :: t => (1, t)
    | _ => (1, trimList s.data)
  let ds := (takeDigits sgncs.2).1
  if ds = [] then none else some (sgncs.1 * digitsVal ds)

/-- The id guard `!userId || isNaN(userId) || userId <= 0` of
`getUserById`, `updateUser` and `deleteUser`, for the string id taken from
the route parameter (JS coerces it with ToNumber for `isNaN` and for the
comparison; a value `num / 10 ^ scale` is `<= 0` exactly when `num <= 0`). -/
def invalidId (s : String) : Bool :=
  s == "" ||
    match toNumber? s with
    | none => true
    | some d => decide (d.num ≤ 0)

/-- A row of the `users` table (migration `20251019150416_init_user_model`):
SERIAL id, nome, email, senha, nullable foto, papel (TEXT with default
'PROFESSOR' and no CHECK constraint), creation and update timestamps,
modelled as naturals. -/
structure User where
  id : Nat
  nome : String
  email : String
  senha : String
  papel : String
  foto : Option String
  createdAt : Nat
  updatedAt : Nat
deriving DecidableEq, Repr

/-- The users table together with the SERIAL id sequence. -/
structure DB where
  rows : List User
  nextId : Nat
deriving DecidableEq, Repr

/-- The `select` projection `{id, nome, email, papel, foto, createdAt}`
shared by `getAllUsers`, `getUserById` and `createUser`; `senha` is
deliberately not selected. -/
structure UserView where
  id : Nat
  nome : String
  email : String
  papel : String
  foto : Option String
  createdAt : Nat
deriving DecidableEq, Repr

/-- The `updateUser` projection, which additionally selects `updatedAt`. -/
structure UserViewU where
  id : Nat
  nome : String
  email : String
  papel : String
  foto : Option String
  createdAt : Nat
  updatedAt : Nat
deriving DecidableEq, Repr

/-- The pre-deletion snapshot `{id, nome, email}` selected by `deleteUser`. -/
structure UserSnap where
  id : Nat
  nome : String
  email : String
deriving DecidableEq, Repr

/-- Project a row through the common read `select`. -/
def viewOf (u : User) : UserView :=
  ⟨u.id, u.nome, u.email, u.papel, u.foto, u.createdAt⟩

/-- Project a row through the `updateUser` `select`. -/
def viewUOf (u : User) : UserViewU :=
  ⟨u.id, u.nome, u.email, u.papel, u.foto, u.createdAt, u.updatedAt⟩

/-- Project a row through the `deleteUser` `select`. -/
def snapOf (u : User) : UserSnap :=
  ⟨u.id, u.nome, u.email⟩

/-- A request body for create/update: the five fields the service reads.
`nome`, `email`, `senha`, `papel` are absent or a string; `foto` also
distinguishes JSON null, the one distinction the service makes. -/
structure Payload where
  nome : Option String := none
  email : Option String := none
  senha : Option String := none
  papel : Option String := none
  foto : JVal := .undef
deriving DecidableEq, Repr

/-- The failure classes thrown by the service, tagged by the message
substrings the controller dispatches on ('inválido' and 'obrigatórios' and
'já cadastrado' and 'já está em uso' map to HTTP 400, 'não encontrado' to
HTTP 404). -/
inductive Err where
  | invalidInput
  | missingFields
  | duplicateEmail
  | emailInUse
  | notFound
deriving DecidableEq, Repr

/-- The Prisma `where: { id: parseInt(userId) }` filter for a possibly-NaN
parsed id. -/
def matchesId (k : Option Int) (u : User) : Bool :=
  k == some (u.id : Int)

/-- The row, if any, selected by `prisma.user.findUnique({ where: { id } })`. -/
def findById (db : DB) (k : Option Int) : Option User :=
  db.rows.find? (matchesId k)

/-- The service helper `emailExists`: a unique lookup by email, coerced to
a boolean. -/
def emailExists (db : DB) (email : String) : Bool :=
  (db.rows.find? (fun u => u.email == email)).isSome

/-- The service helper `validateUserData`: passes exactly when `nome`,
`email` and `senha` are all truthy (`!nome || !email || !senha` throws). -/
def validateUserData (p : Payload) : Bool :=
  truthyO p.nome && truthyO p.email && truthyO p.senha

/-- The `updateUser` email guard
`userData.email && userData.email !== usuarioExistente.email`, followed by
the `emailExists` lookup. -/
def emailConflict (db : DB) (existing : User) (p : Payload) : Bool :=
  match p.email with
  | some e => e != "" && e != existing.email && emailExists db e
  | none => false

/-- The merge step `if (userData.f) dadosAtualizacao.f = userData.f`: a
stored string field is overwritten only by a truthy provided value. -/
def mergeT (o : Option String) (old : String) : String :=
  match o with
  | some s => if s = "" then old else s
  | none => old

/-- The merge step `if (userData.foto !== undefined) dadosAtualizacao.foto
= userData.foto`: photo is overwritten whenever provided, including as
null (and including as the empty string). -/
def mergeFoto (v : JVal) (old : Option String) : Option String :=
  match v with
  | .undef => old
  | .null => none
  | .str s => some s

/-- Service `createUser(userData)`: `validateUserData`, then the
`emailExists` uniqueness check, then the insert with `papel || 'PROFESSOR'`
and `foto || null` defaulting; returns the projected created row.  `now`
is the timestamp the database assigns to `createdAt` and `updatedAt`. -/
def createUser (db : DB) (p : Payload) (now : Nat) : Except Err UserView × DB :=
  match p.nome, p.email, p.senha with
  | some nome, some email, some senha =>
    if nome == "" || email == "" || senha == "" then (.error .missingFields, db)
    else if emailExists db email then (.error .duplicateEmail, db)
    else
      let u : User :=
        { id := db.nextId
          nome := nome
          email := email
          senha := senha
          papel := orDefault p.papel "PROFESSOR"
          foto := jsOrNull p.foto
          createdAt := now
          updatedAt := now }
      (.ok (viewOf u), ⟨db.rows ++ [u], db.nextId + 1⟩)
  | _, _, _ => (.error .missingFields, db)

/-- The `dadosAtualizacao` assembly of `updateUser` applied to the found
row: each of nome, email, senha, papel is overwritten only when provided
truthy, foto whenever not `undefined`, and `updatedAt` is refreshed by the
`@updatedAt` column. -/
def mergeRow (existing : User) (p : Payload) (now : Nat) : User :=
  { existing with
    nome := mergeT p.nome existing.nome
    email := mergeT p.email existing.email
    senha := mergeT p.senha existing.senha
    papel := mergeT p.papel existing.papel
    foto := mergeFoto p.foto existing.foto
    updatedAt := now }

/-- Service `updateUser(userId, userData)`: id guard, existence check,
email-uniqueness guard when the email is being changed, then the merge of
the truthy-provided fields (photo whenever not `undefined`). -/
def updateUser (db : DB) (userId : String) (p : Payload) (now : Nat) :
    Except Err UserViewU × DB :=
  if invalidId userId then (.error .invalidInput, db)
  else
    match findById db (parseIntJS userId) with
    | none => (.error .notFound, db)
    | some existing =>
      if emailConflict db existing p then (.error .emailInUse, db)
      else
        (.ok (viewUOf (mergeRow existing p now)),
          ⟨db.rows.map
            (fun u => if matchesId (parseIntJS userId) u then mergeRow existing p now else u),
            db.nextId⟩)

/-- Service `deleteUser(userId)`: id guard, existence check selecting the
`{id, nome, email}` snapshot, then the delete; returns the snapshot. -/
def deleteUser (db : DB) (userId : String) : Except Err UserSnap × DB :=
  if invalidId userId then (.error .invalidInput, db)
  else
    match findById db (parseIntJS userId) with
    | none => (.error .notFound, db)
    | some u =>
      (.ok (snapOf u),
        ⟨db.rows.filter (fun v => !(matchesId (parseIntJS userId) v)), db.nextId⟩)

/-- Service `getAllUsers()`: every row, ordered by `createdAt` descending,
projected through the password-free `select`. -/
def getAllUsers (db : DB) : List UserView :=
  (db.rows.insertionSort (fun a b => b.createdAt ≤ a.createdAt)).map viewOf

/-- Service `getUserById(userId)`: id guard, then the unique lookup; the
row is projected without `senha`, and an absent row is the `null` sentinel
(`none`) that the controller maps to HTTP 404. -/
def getUserById (db : DB) (userId : String) : Except Err (Option UserView) :=
  if invalidId userId then .error .invalidInput
  else .ok ((findById db (parseIntJS userId)).map viewOf)

/-- Rewrite a row's stored password. -/
def scrubRow (f : String → String) (u : User) : User :=
  { u with senha := f u.senha }

/-- Rewrite every stored password in the table; a read path whose result
is invariant under every such rewrite cannot be leaking passwords. -/
def scrub (f : String → String) (db : DB) : DB :=
  ⟨db.rows.map (scrubRow f), db.nextId⟩

/-! Helper lemmas about the embedding. -/

theorem viewOf_scrubRow (f : String → String) (u : User) :
    viewOf (scrubRow f u) = viewOf u := rfl

theorem matchesId_scrubRow (k : Option Int) (f : String → String) (u : User) :
    matchesId k (scrubRow f u) = matchesId k u := rfl

theorem findById_scrub (f : String → String) (db : DB) (k : Option Int) :
    findById (scrub f db) k = (findById db k).map (scrubRow f) := by
  unfold findById scrub
  rw [List.find?_map]
  rfl

theorem emailExists_scrub (f : String → String) (db : DB) (e : String) :
    emailExists (scrub f db) e = emailExists db e := by
  unfold emailExists scrub
  rw [List.find?_map]
  show (Option.map (scrubRow f) (List.find? (fun u => u.email == e) db.rows)).isSome = _
  cases List.find? (fun u => u.email == e) db.rows <;> rfl

theorem emailExists_iff {db : DB} {e : String} :
    emailExists db e = true ↔ ∃ u ∈ db.rows, u.email = e := by
  unfold emailExists
  rw [List.find?_isSome]
  simp

theorem emailExists_eq_false {db : DB} {e : String} (h : emailExists db e = false) :
    ∀ u ∈ db.rows, u.email ≠ e := by
  intro u hu he
  have : emailExists db e = true := emailExists_iff.2 ⟨u, hu, he⟩
  simp [this] at h

theorem find?_filter_not {α : Type} (l : List α) (pred : α → Bool) :
    (l.filter (fun v => !(pred v))).find? pred = none := by
  rw [List.find?_eq_none]
  intro x hx
  have h := (List.mem_filter.1 hx).2
  simp only [Bool.not_eq_true'] at h
  simp [h]

theorem eq_of_mem_of_id_eq {l : List User}
    (h : l.Pairwise fun a b => a.id ≠ b.id) {a b : User}
    (ha : a ∈ l) (hb : b ∈ l) (hid : a.id = b.id) : a = b := by
  induction l with
  | nil => cases ha
  | cons x xs ih =>
    obtain ⟨hx, hxs⟩ := List.pairwise_cons.1 h
    rcases List.mem_cons.1 ha with rfl | ha' <;>
      rcases List.mem_cons.1 hb with rfl | hb'
    · rfl
    · exact absurd hid (hx _ hb')
    · exact absurd hid.symm (hx _ ha')
    · exact ih hxs ha' hb'

theorem updateUser_eq_invalid {db : DB} {s : String} {p : Payload} {now : Nat}
    (h : invalidId s = true) :
    updateUser db s p now = (.error .invalidInput, db) := by
  simp [updateUser, h]

theorem updateUser_eq_notFound {db : DB} {s : String} {p : Payload} {now : Nat}
    (h : invalidId s = false) (hf : findById db (parseIntJS s) = none) :
    updateUser db s p now = (.error .notFound, db) := by
  have hf' : List.find? (matchesId (parseIntJS s)) db.rows = none := hf
  simp [updateUser, h, findById, hf']

theorem updateUser_eq_conflict {db : DB} {s : String} {p : Payload} {now : Nat} {ex : User}
    (h : invalidId s = false) (hf : findById db (parseIntJS s) = some ex)
    (hc : emailConflict db ex p = true) :
    updateUser db s p now = (.error .emailInUse, db) := by
  have hf' : List.find? (matchesId (parseIntJS s)) db.rows = some ex := hf
  simp [updateUser, h, findById, hf', hc]

theorem updateUser_eq_ok {db : DB} {s : String} {p : Payload} {now : Nat} {ex : User}
    (h : invalidId s = false) (hf : findById db (parseIntJS s) = some ex)
    (hc : emailConflict db ex p = false) :
    updateUser db s p now =
      (.ok (viewUOf (mergeRow ex p now)),
        ⟨db.rows.map (fun u => if matchesId (parseIntJS s) u then mergeRow ex p now else u),
          db.nextId⟩) := by
  have hf' : List.find? (matchesId (parseIntJS s)) db.rows = some ex := hf
  simp [updateUser, h, findById, hf', hc]

theorem createUser_ok_fields {db : DB} {p : Payload} {now : Nat} {v : UserView}
    (hv : (createUser db p now).1 = .ok v) :
    ∃ nome email senha, p.nome = some nome ∧ p.email = some email ∧ p.senha = some senha ∧
      nome ≠ "" ∧ email ≠ "" ∧ senha ≠ "" ∧ emailExists db email = false ∧
      v = viewOf ⟨db.nextId, nome, email, senha, orDefault p.papel "PROFESSOR",
        jsOrNull p.foto, now, now⟩ := by
  rcases p with ⟨pn, pe, ps, pp, pf⟩
  cases pn with
  | none => simp [createUser] at hv
  | some nome =>
    cases pe with
    | none => simp [createUser] at hv
    | some email =>
      cases ps with
      | none => simp [createUser] at hv
      | some senha =>
        simp only [createUser] at hv
        by_cases h1 : (nome == "" || email == "" || senha == "") = true
        · rw [if_pos h1] at hv
          simp at hv
        · rw [if_neg h1] at hv
          by_cases h2 : emailExists db email = true
          · rw [if_pos h2] at hv
            simp at hv
          · rw [if_neg h2] at hv
            simp only [Bool.or_eq_true, beq_iff_eq, not_or] at h1
            simp only [] at hv
            refine ⟨nome, email, senha, rfl, rfl, rfl, h1.1.1, h1.1.2, h1.2,
              by simpa using h2, by simpa using hv.symm⟩

theorem mergeRow_empty (ex : User) (now : Nat) :
    mergeRow ex {} now = { ex with updatedAt := now } := rfl

theorem createUser_uniqueEmails (db : DB) (p : Payload) (now : Nat)
    (hem : db.rows.Pairwise fun a b => a.email ≠ b.email) :
    (createUser db p now).2.rows.Pairwise fun a b => a.email ≠ b.email := by
  obtain ⟨pn, pe, ps, pp, pf⟩ := p
  cases pn with
  | none => exact hem
  | some nome =>
    cases pe with
    | none => exact hem
    | some email =>
      cases ps with
      | none => exact hem
      | some senha =>
        by_cases h1 : (nome == "" || email == "" || senha == "") = true
        · simpa [createUser, h1] using hem
        · by_cases h2 : emailExists db email = true
          · simpa [createUser, h1, h2] using hem
          · have hfr := emailExists_eq_false (show emailExists db email = false by simpa using h2)
            have hrows : (createUser db ⟨some nome, some email, some senha, pp, pf⟩ now).2.rows
                = db.rows ++ [⟨db.nextId, nome, email, senha, orDefault pp "PROFESSOR",
                    jsOrNull pf, now, now⟩] := by
              simp [createUser, h1, h2]
            rw [hrows, List.pairwise_append]
            refine ⟨hem, List.pairwise_singleton _ _, ?_⟩
            intro a ha b hb
            rw [List.mem_singleton] at hb
            subst hb
            exact hfr a ha

theorem deleteUser_uniqueEmails (db : DB) (s : String)
    (hem : db.rows.Pairwise fun a b => a.email ≠ b.email) :
    (deleteUser db s).2.rows.Pairwise fun a b => a.email ≠ b.email := by
  by_cases h : invalidId s = true
  · simpa [deleteUser, h] using hem
  · cases hf : findById db (parseIntJS s) with
    | none =>
      have hf' : List.find? (matchesId (parseIntJS s)) db.rows = none := hf
      simpa [deleteUser, h, findById, hf'] using hem
    | some u =>
      have hf' : List.find? (matchesId (parseIntJS s)) db.rows = some u := hf
      have hrows : (deleteUser db s).2.rows =
          db.rows.filter (fun v => !(matchesId (parseIntJS s) v)) := by
        simp [deleteUser, h, findById, hf']
      rw [hrows]
      exact List.Pairwise.sublist (List.filter_sublist _) hem

theorem updateUser_uniqueEmails (db : DB) (s : String) (p : Payload) (now : Nat)
    (hem : db.rows.Pairwise fun a b => a.email ≠ b.email)
    (hid : db.rows.Pairwise fun a b => a.id ≠ b.id) :
    (updateUser db s p now).2.rows.Pairwise fun a b => a.email ≠ b.email := by
  by_cases h : invalidId s = true
  · simpa [updateUser_eq_invalid h] using hem
  · have h' : invalidId s = false := by simpa using h
    cases hf : findById db (parseIntJS s) with
    | none => simpa [updateUser_eq_notFound h' hf] using hem
    | some ex =>
      by_cases hc : emailConflict db ex p = true
      · simpa [updateUser_eq_conflict h' hf hc] using hem
      · have hc' : emailConflict db ex p = false := by simpa using hc
        rw [updateUser_eq_ok h' hf hc']
        rw [show ((.ok (viewUOf (mergeRow ex p now)),
            ⟨db.rows.map (fun u => if matchesId (parseIntJS s) u then mergeRow ex p now else u),
              db.nextId⟩) : Except Err UserViewU × DB).2.rows =
            db.rows.map (fun u => if matchesId (parseIntJS s) u then mergeRow ex p now else u)
          from rfl]
        rw [List.pairwise_map]
        have hexmem : ex ∈ db.rows := List.mem_of_find?_eq_some hf
        have hexid : matchesId (parseIntJS s) ex = true := List.find?_some hf
        have hkey : ∀ {a : User}, a ∈ db.rows → matchesId (parseIntJS s) a = true → a = ex := by
          intro a ha hma
          apply eq_of_mem_of_id_eq hid ha hexmem
          have h1 : parseIntJS s = some (a.id : Int) := by
            simpa [matchesId] using hma
          have h2 : parseIntJS s = some (ex.id : Int) := by
            simpa [matchesId] using hexid
          have h3 : ((a.id : Int)) = (ex.id : Int) := Option.some.inj (h1.symm.trans h2)
          exact_mod_cast h3
        have hmm : (mergeRow ex p now).email = ex.email ∨
            ((mergeRow ex p now).email ≠ ex.email ∧
              emailExists db ((mergeRow ex p now).email) = false) := by
          cases hpe : p.email with
          | none => left; simp [mergeRow, mergeT, hpe]
          | some e =>
            by_cases he0 : e = ""
            · left; simp [mergeRow, mergeT, hpe, he0]
            · by_cases hee : e = ex.email
              · left; simp [mergeRow, mergeT, hpe, he0, hee]
              · right
                have hmc : emailExists db e = false := by
                  simpa [emailConflict, hpe, he0, hee] using hc'
                constructor
                · simpa [mergeRow, mergeT, hpe, he0] using hee
                · simpa [mergeRow, mergeT, hpe, he0] using hmc
        refine (hem.and hid).imp_of_mem ?_
        intro a b ha hb hab
        by_cases hma : matchesId (parseIntJS s) a = true <;>
          by_cases hmb : matchesId (parseIntJS s) b = true
        · have hae : a = ex := hkey ha hma
          have hbe : b = ex := hkey hb hmb
          exact absurd (congrArg User.id (hae.trans hbe.symm)) hab.2
        · rw [if_pos hma, if_neg hmb]
          obtain rfl := hkey ha hma
          rcases hmm with hsame | ⟨_, hfr⟩
          · rw [hsame]; exact hab.1
          · exact (emailExists_eq_false hfr b hb).symm
        · rw [if_neg hma, if_pos hmb]
          obtain rfl := hkey hb hmb
          rcases hmm with hsame | ⟨_, hfr⟩
          · rw [hsame]; exact hab.1
          · exact emailExists_eq_false hfr a ha
        · rw [if_neg hma, if_neg hmb]
          exact hab.1

/-! Claim theorems. -/

/-- C1: for every user record and every read-path operation (list, getById,
create, update, delete), the returned value never contains the password
field: every result is invariant under an arbitrary rewrite of every stored
password, so no projection of a successful (or failed) outcome can expose
`senha`. -/
theorem password_never_returned (f : String → String) (db : DB) (s : String)
    (p : Payload) (now : Nat) :
    getAllUsers (scrub f db) = getAllUsers db ∧
    getUserById (scrub f db) s = getUserById db s ∧
    (createUser (scrub f db) p now).1 = (createUser db p now).1 ∧
    (updateUser (scrub f db) s p now).1 = (updateUser db s p now).1 ∧
    (deleteUser (scrub f db) s).1 = (deleteUser db s).1 := by
  refine ⟨?_, ?_, ?_, ?_, ?_⟩
  · unfold getAllUsers scrub
    rw [← List.map_insertionSort (fun a b : User => b.createdAt ≤ a.createdAt)
          (fun a b : User => b.createdAt ≤ a.createdAt) (scrubRow f) db.rows
          (fun a _ b _ => Iff.rfl),
        List.map_map]
    rfl
  · by_cases h : invalidId s = true
    · simp [getUserById, h]
    · simp only [getUserById, h, if_false, Bool.not_eq_true] at *
      rw [if_neg (by simp [h]), if_neg (by simp [h]), findById_scrub, Option.map_map]
      cases findById db (parseIntJS s) <;> rfl
  · rcases p with ⟨pn, pe, ps, pp, pf⟩
    cases pn <;> cases pe <;> cases ps <;>
      simp only [createUser, emailExists_scrub] <;>
      split_ifs <;> rfl
  · by_cases h : invalidId s = true
    · simp [updateUser, h]
    · have hc : ∀ ex : User,
          emailConflict (scrub f db) (scrubRow f ex) p = emailConflict db ex p := by
        intro ex
        cases hpe : p.email with
        | none => simp [emailConflict, hpe]
        | some e => simp [emailConflict, hpe, emailExists_scrub, scrubRow]
      rw [updateUser, updateUser, if_neg (by simp [h]), if_neg (by simp [h]),
        findById_scrub]
      cases hf : findById db (parseIntJS s) with
      | none => rfl
      | some ex =>
        simp only [Option.map_some']
        rw [hc ex]
        split_ifs <;> rfl
  · by_cases h : invalidId s = true
    · simp [deleteUser, h]
    · rw [deleteUser, deleteUser, if_neg (by simp [h]), if_neg (by simp [h]),
        findById_scrub]
      cases hf : findById db (parseIntJS s) with
      | none => rfl
      | some ex => rfl

/-- C9: list() returns all users in the table, each projected without the
password, ordered by createdAt descending (newest first), with no
filtering or pagination: the result is a permutation of the projection of
the whole table, pairwise sorted newest-first, of the table's length. -/
theorem getAllUsers_spec (db : DB) :
    (getAllUsers db).Perm (db.rows.map viewOf) ∧
    List.Sorted (fun a b : UserView => b.createdAt ≤ a.createdAt) (getAllUsers db) ∧
    (getAllUsers db).length = db.rows.length := by
  refine ⟨?_, ?_, ?_⟩
  · exact (List.perm_insertionSort _ db.rows).map viewOf
  · have hs := @List.sorted_insertionSort User (fun a b => b.createdAt ≤ a.createdAt) _
      ⟨fun a b => le_total b.createdAt a.createdAt⟩
      ⟨fun _ _ _ hab hbc => le_trans hbc hab⟩ db.rows
    exact List.pairwise_map.2 hs
  · calc (getAllUsers db).length
        = (db.rows.insertionSort fun a b => b.createdAt ≤ a.createdAt).length := by
          simp [getAllUsers]
      _ = db.rows.length := List.length_insertionSort _ _

/-- C2: create(data) fails with MissingFields exactly when `validateUserData`
rejects the payload, i.e. when any of nome, email, senha is absent or empty;
for every payload with all three present and non-empty and an unused email,
it persists a new row with papel defaulted to PROFESSOR when omitted and
foto defaulted to null when omitted, returns the created record through the
password-free projection, and a subsequent getById on the returned id
returns a record with matching nome and email. -/
theorem createUser_spec (db : DB) (p : Payload) (now : Nat)
    (hfresh : ∀ u ∈ db.rows, u.id ≠ db.nextId) :
    ((createUser db p now).1 = .error .missingFields ↔ validateUserData p = false) ∧
    (∀ nome email senha, p.nome = some nome → p.email = some email → p.senha = some senha →
      nome ≠ "" → email ≠ "" → senha ≠ "" → emailExists db email = false →
      ∃ v : UserView, (createUser db p now).1 = .ok v ∧
        v.nome = nome ∧ v.email = email ∧ v.id = db.nextId ∧
        (p.papel = none → v.papel = "PROFESSOR") ∧
        (p.foto = .undef → v.foto = none) ∧
        (createUser db p now).2.rows = db.rows ++
          [⟨db.nextId, nome, email, senha, orDefault p.papel "PROFESSOR",
            jsOrNull p.foto, now, now⟩] ∧
        ∀ s, invalidId s = false → parseIntJS s = some (db.nextId : Int) →
          ∃ w : UserView, getUserById (createUser db p now).2 s = .ok (some w) ∧
            w.nome = nome ∧ w.email = email) := by
  obtain ⟨pn, pe, ps, pp, pf⟩ := p
  constructor
  · cases pn with
    | none => simp [createUser, validateUserData, truthyO]
    | some nome =>
      cases pe with
      | none => simp [createUser, validateUserData, truthyO]
      | some email =>
        cases ps with
        | none => simp [createUser, validateUserData, truthyO]
        | some senha =>
          simp only [createUser, validateUserData, truthyO]
          by_cases h1 : (nome == "" || email == "" || senha == "") = true
          · rw [if_pos h1]
            simp only [Bool.or_eq_true, beq_iff_eq] at h1
            constructor
            · intro _
              rcases h1 with (h | h) | h <;> simp [h]
            · intro _
              rfl
          · rw [if_neg h1]
            simp only [Bool.or_eq_true, beq_iff_eq, not_or] at h1
            have hval : (nome != "" && email != "" && senha != "") = true := by
              simp [h1.1.1, h1.1.2, h1.2]
            constructor
            · intro hv
              by_cases h2 : emailExists db email = true
              · rw [if_pos h2] at hv
                simp at hv
              · rw [if_neg h2] at hv
                simp at hv
            · intro hcontra
              rw [hval] at hcontra
              cases hcontra
  · intro nome email senha hn he hs hne0 hee0 hse0 hex
    subst hn he hs
    have h1 : (nome == "" || email == "" || senha == "") = false := by
      simp [hne0, hee0, hse0]
    have hok : createUser db ⟨some nome, some email, some senha, pp, pf⟩ now =
        (.ok (viewOf ⟨db.nextId, nome, email, senha, orDefault pp "PROFESSOR",
            jsOrNull pf, now, now⟩),
          ⟨db.rows ++ [⟨db.nextId, nome, email, senha, orDefault pp "PROFESSOR",
            jsOrNull pf, now, now⟩], db.nextId + 1⟩) := by
      simp [createUser, h1, hex]
    refine ⟨viewOf ⟨db.nextId, nome, email, senha, orDefault pp "PROFESSOR",
        jsOrNull pf, now, now⟩, by rw [hok], rfl, rfl, rfl, ?_, ?_, by rw [hok], ?_⟩
    · intro h
      subst h
      rfl
    · intro h
      subst h
      rfl
    · intro s hsv hsk
      refine ⟨viewOf ⟨db.nextId, nome, email, senha, orDefault pp "PROFESSOR",
          jsOrNull pf, now, now⟩, ?_, rfl, rfl⟩
      rw [getUserById, if_neg (by simp [hsv])]
      have hfind : findById (createUser db ⟨some nome, some email, some senha, pp, pf⟩ now).2
          (parseIntJS s) =
          some ⟨db.nextId, nome, email, senha, orDefault pp "PROFESSOR",
            jsOrNull pf, now, now⟩ := by
        rw [hok]
        show List.find? _ (db.rows ++ [_]) = _
        rw [List.find?_append]
        have hnone : db.rows.find? (matchesId (parseIntJS s)) = none := by
          rw [List.find?_eq_none]
          intro x hx hmx
          rw [hsk] at hmx
          simp only [matchesId, beq_iff_eq, Option.some.injEq] at hmx
          exact hfresh x hx (by exact_mod_cast hmx.symm)
        rw [hnone]
        simp [matchesId, hsk]
      rw [hfind]
      rfl

/-- C2 witness: the theorem applied to the empty table with the payload
(nome A, email a@x.com, senha s1) and the id string "1". -/
theorem createUser_spec_witness :
    (∀ u ∈ (⟨[], 1⟩ : DB).rows, u.id ≠ (⟨[], 1⟩ : DB).nextId) ∧
    ∃ v : UserView,
      (createUser ⟨[], 1⟩ ⟨some "A", some "a@x.com", some "s1", none, .undef⟩ 0).1 = .ok v ∧
      v.nome = "A" ∧ v.email = "a@x.com" ∧ v.papel = "PROFESSOR" ∧
      ∃ w : UserView,
        getUserById (createUser ⟨[], 1⟩
            ⟨some "A", some "a@x.com", some "s1", none, .undef⟩ 0).2 "1" = .ok (some w) ∧
        w.nome = "A" ∧ w.email = "a@x.com" := by
  have h := (createUser_spec ⟨[], 1⟩ ⟨some "A", some "a@x.com", some "s1", none, .undef⟩ 0
    (by simp)).2 "A" "a@x.com" "s1" rfl rfl rfl (by decide) (by decide) (by decide) (by decide)
  obtain ⟨v, hv, hn, he, -, hpap, -, -, hget⟩ := h
  exact ⟨by simp, v, hv, hn, he, hpap rfl, hget "1" (by decide) (by decide)⟩

/-- C3: email uniqueness holds across the whole table at all times — every
operation preserves pairwise-distinct emails (update also needs the
table's primary-key uniqueness); create fails with DuplicateEmail exactly
when the given email is already held by an existing row (for a payload
passing field validation), and two sequential creates with the same unused
email yield one success and then one DuplicateEmail failure that leaves
the table unchanged. -/
theorem email_uniqueness (db : DB) (p q : Payload) (now now2 : Nat) (e : String)
    (hpe : p.email = some e) (hvp : validateUserData p = true)
    (hqe : q.email = some e) (hvq : validateUserData q = true) :
    (emailExists db e = true → createUser db p now = (.error .duplicateEmail, db)) ∧
    (emailExists db e = false →
      ∃ v db1, createUser db p now = (.ok v, db1) ∧ v.email = e ∧
        createUser db1 q now2 = (.error .duplicateEmail, db1)) ∧
    (∀ p2 now3, db.rows.Pairwise (fun a b => a.email ≠ b.email) →
      (createUser db p2 now3).2.rows.Pairwise (fun a b => a.email ≠ b.email)) ∧
    (∀ s p2 now3, db.rows.Pairwise (fun a b => a.email ≠ b.email) →
      db.rows.Pairwise (fun a b => a.id ≠ b.id) →
      (updateUser db s p2 now3).2.rows.Pairwise (fun a b => a.email ≠ b.email)) ∧
    (∀ s, db.rows.Pairwise (fun a b => a.email ≠ b.email) →
      (deleteUser db s).2.rows.Pairwise (fun a b => a.email ≠ b.email)) := by
  obtain ⟨pn, pe2, ps, pp, pf⟩ := p
  obtain ⟨qn, qe2, qs, qp, qf⟩ := q
  simp only at hpe hqe
  subst hpe hqe
  simp only [validateUserData, Bool.and_eq_true] at hvp hvq
  obtain ⟨⟨hvn, hve⟩, hvs⟩ := hvp
  obtain ⟨⟨hwn, hwe⟩, hws⟩ := hvq
  cases pn with
  | none => exact absurd hvn (by simp [truthyO])
  | some nome =>
  cases ps with
  | none => exact absurd hvs (by simp [truthyO])
  | some senha =>
  cases qn with
  | none => exact absurd hwn (by simp [truthyO])
  | some nome2 =>
  cases qs with
  | none => exact absurd hws (by simp [truthyO])
  | some senha2 =>
  simp only [truthyO, bne_iff_ne, ne_eq] at hvn hve hvs hwn hwe hws
  have h1 : (nome == "" || e == "" || senha == "") = false := by
    simp [hvn, hve, hvs]
  have h1q : (nome2 == "" || e == "" || senha2 == "") = false := by
    simp [hwn, hwe, hws]
  refine ⟨?_, ?_, ?_, ?_, ?_⟩
  · intro hex
    simp [createUser, h1, hex]
  · intro hex
    refine ⟨viewOf ⟨db.nextId, nome, e, senha, orDefault pp "PROFESSOR", jsOrNull pf, now, now⟩,
      ⟨db.rows ++ [⟨db.nextId, nome, e, senha, orDefault pp "PROFESSOR", jsOrNull pf, now, now⟩],
        db.nextId + 1⟩, by simp [createUser, h1, hex], rfl, ?_⟩
    have hex1 : emailExists
        (⟨db.rows ++ [⟨db.nextId, nome, e, senha, orDefault pp "PROFESSOR", jsOrNull pf,
          now, now⟩], db.nextId + 1⟩ : DB) e = true := by
      refine emailExists_iff.2
        ⟨⟨db.nextId, nome, e, senha, orDefault pp "PROFESSOR", jsOrNull pf, now, now⟩, ?_, rfl⟩
      simp
    simp [createUser, h1q, hex1]
  · intro p2 now3 hem
    exact createUser_uniqueEmails db p2 now3 hem
  · intro s p2 now3 hem hid
    exact updateUser_uniqueEmails db s p2 now3 hem hid
  · intro s hem
    exact deleteUser_uniqueEmails db s hem

/-- C3 witness: two creates with email a@x.com against the empty table —
the first succeeds, the second fails with DuplicateEmail. -/
theorem email_uniqueness_witness :
    validateUserData ⟨some "A", some "a@x.com", some "s1", none, .undef⟩ = true ∧
    emailExists ⟨[], 1⟩ "a@x.com" = false ∧
    ∃ v db1,
      createUser ⟨[], 1⟩ ⟨some "A", some "a@x.com", some "s1", none, .undef⟩ 0 = (.ok v, db1) ∧
      v.email = "a@x.com" ∧
      createUser db1 ⟨some "B", some "a@x.com", some "s2", none, .undef⟩ 1 =
        (.error .duplicateEmail, db1) := by
  have h := (email_uniqueness ⟨[], 1⟩ ⟨some "A", some "a@x.com", some "s1", none, .undef⟩
    ⟨some "B", some "a@x.com", some "s2", none, .undef⟩ 0 1 "a@x.com" rfl (by decide) rfl
    (by decide)).2.1 (by decide)
  exact ⟨by decide, by decide, h⟩

/-- C6 counterexample: the id string "5.7" denotes the positive
non-integer 57/10, so by the claim getById should fail with InvalidInput;
instead the guard accepts it, parseInt truncates it to 5, and the lookup
reports the not-found sentinel. -/
theorem getUserById_claim_cex :
    toNumber? "5.7" = some ⟨57, 1⟩ ∧ (0 : Int) < 57 ∧ ¬ (10 : Int) ^ 1 ∣ 57 ∧
    parseIntJS "5.7" = some 5 ∧
    getUserById ⟨[], 1⟩ "5.7" ≠ .error .invalidInput ∧
    getUserById ⟨[], 1⟩ "5.7" = .ok none := by
  refine ⟨by decide, by decide, by decide, by decide, fun h => ?_, rfl⟩
  rw [show getUserById ⟨[], 1⟩ "5.7" = .ok none from rfl] at h
  exact Except.noConfusion h

/-- C6 (amended): getById fails with InvalidInput exactly for the ids the
guard rejects (empty, non-numeric, or with numeric value at most 0); any
id of positive numeric value is accepted even when it is not an integer
(parseInt truncates it).  For an accepted id with no corresponding row the
result is the explicit not-found sentinel `Except.ok none`, which is
distinct from the validation failure; on success the user is returned
through the password-free projection. -/
theorem getUserById_spec (db : DB) (s : String) :
    (invalidId s = true → getUserById db s = .error .invalidInput) ∧
    (∀ d : DecNum, toNumber? s = some d → 0 < d.num → invalidId s = false) ∧
    (invalidId s = false → findById db (parseIntJS s) = none →
      getUserById db s = .ok none) ∧
    (invalidId s = false → ∀ u, findById db (parseIntJS s) = some u →
      getUserById db s = .ok (some (viewOf u))) ∧
    ((.ok none : Except Err (Option UserView)) ≠ .error .invalidInput) := by
  refine ⟨?_, ?_, ?_, ?_, fun h => Except.noConfusion h⟩
  · intro h
    simp [getUserById, h]
  · intro d hd hpos
    by_cases hs : s = ""
    · subst hs
      have h0 : toNumber? "" = some ⟨0, 0⟩ := rfl
      rw [h0] at hd
      obtain rfl := Option.some.inj hd
      exact absurd hpos (by decide)
    · unfold invalidId
      rw [hd]
      simp [hs]
      omega
  · intro h hf
    simp [getUserById, h, hf]
  · intro h u hf
    simp [getUserById, h, hf]

/-- C6 witness: the theorem applied at the concrete ids "abc" (rejected)
and "10" (accepted, no row). -/
theorem getUserById_spec_witness :
    invalidId "abc" = true ∧
    getUserById (⟨[], 1⟩ : DB) "abc" = .error .invalidInput ∧
    invalidId "10" = false ∧
    getUserById (⟨[], 1⟩ : DB) "10" = .ok none := by
  refine ⟨by decide, ?_, by decide, ?_⟩
  · exact (getUserById_spec ⟨[], 1⟩ "abc").1 (by decide)
  · exact (getUserById_spec ⟨[], 1⟩ "10").2.2.1 (by decide) (by decide)

/-- C4: update(id, data) raises EmailInUse exactly when the id passes the
guard, a row exists for it, data.email is present and differs from that
row's current email, and another row already holds it (in a table whose
stored emails are non-empty); setting the email to the row's own current
value never raises EmailInUse; the checks run in order (id validity, then
existence, then email-uniqueness, then the merge), so InvalidInput wins
over NotFound and NotFound wins over EmailInUse, and on any failure the
table is unchanged. -/
theorem updateUser_error_spec (db : DB) (s : String) (p : Payload) (now : Nat)
    (hne : ∀ u ∈ db.rows, u.email ≠ "") :
    ((updateUser db s p now).1 = .error .emailInUse ↔
      (invalidId s = false ∧
        ∃ ex, findById db (parseIntJS s) = some ex ∧
          ∃ e, p.email = some e ∧ e ≠ ex.email ∧
            ∃ v ∈ db.rows, v ≠ ex ∧ v.email = e)) ∧
    (∀ ex, findById db (parseIntJS s) = some ex → p.email = some ex.email →
      (updateUser db s p now).1 ≠ .error .emailInUse) ∧
    (invalidId s = true → updateUser db s p now = (.error .invalidInput, db)) ∧
    (invalidId s = false → findById db (parseIntJS s) = none →
      updateUser db s p now = (.error .notFound, db)) ∧
    (∀ err, (updateUser db s p now).1 = .error err → (updateUser db s p now).2 = db) := by
  have hiff : (updateUser db s p now).1 = .error .emailInUse ↔
      (invalidId s = false ∧
        ∃ ex, findById db (parseIntJS s) = some ex ∧
          ∃ e, p.email = some e ∧ e ≠ ex.email ∧
            ∃ v ∈ db.rows, v ≠ ex ∧ v.email = e) := by
    constructor
    · intro hErr
      by_cases h : invalidId s = true
      · rw [updateUser_eq_invalid h] at hErr
        simp at hErr
      · have h' : invalidId s = false := by simpa using h
        cases hf : findById db (parseIntJS s) with
        | none =>
          rw [updateUser_eq_notFound h' hf] at hErr
          simp at hErr
        | some ex =>
          by_cases hc : emailConflict db ex p = true
          · refine ⟨h', ex, rfl, ?_⟩
            cases hpe : p.email with
            | none => rw [emailConflict, hpe] at hc; cases hc
            | some e =>
              have hc' : (e != "" && e != ex.email && emailExists db e) = true := by
                rw [emailConflict, hpe] at hc
                exact hc
              simp only [Bool.and_eq_true, bne_iff_ne, ne_eq] at hc'
              obtain ⟨⟨he0, hee⟩, hex⟩ := hc'
              obtain ⟨v, hv, hveq⟩ := emailExists_iff.1 hex
              refine ⟨e, rfl, hee, v, hv, ?_, hveq⟩
              intro hcontra
              subst hcontra
              exact hee (hveq ▸ rfl)
          · have hc' : emailConflict db ex p = false := by simpa using hc
            rw [updateUser_eq_ok h' hf hc'] at hErr
            simp at hErr
    · rintro ⟨h, ex, hf, e, hpe, hee, v, hv, hvne, hveq⟩
      have he0 : e ≠ "" := hveq ▸ hne v hv
      have hex : emailExists db e = true := emailExists_iff.2 ⟨v, hv, hveq⟩
      have hc : emailConflict db ex p = true := by
        rw [emailConflict, hpe]
        simp [he0, hee, hex]
      rw [updateUser_eq_conflict h hf hc]
  refine ⟨hiff, ?_, fun h => updateUser_eq_invalid h, fun h hf => updateUser_eq_notFound h hf, ?_⟩
  · intro ex hf hpe hErr
    obtain ⟨-, ex2, hf2, e, hpe2, hee, -⟩ := hiff.1 hErr
    rw [hf] at hf2
    obtain rfl := Option.some.inj hf2
    rw [hpe] at hpe2
    obtain rfl := Option.some.inj hpe2
    exact hee rfl
  · intro err hErr
    by_cases h : invalidId s = true
    · rw [updateUser_eq_invalid h]
    · have h' : invalidId s = false := by simpa using h
      cases hf : findById db (parseIntJS s) with
      | none => rw [updateUser_eq_notFound h' hf]
      | some ex =>
        by_cases hc : emailConflict db ex p = true
        · rw [updateUser_eq_conflict h' hf hc]
        · have hc' : emailConflict db ex p = false := by simpa using hc
          rw [updateUser_eq_ok h' hf hc'] at hErr
          simp at hErr

/-- C4 witness: a two-row table where updating user 1 to user 2's email
raises EmailInUse, while re-submitting user 1's own email does not. -/
theorem updateUser_error_spec_witness :
    (∀ u ∈ (⟨[⟨1, "A", "a@x", "p1", "PROFESSOR", none, 0, 0⟩,
        ⟨2, "B", "b@x", "p2", "PROFESSOR", none, 1, 1⟩], 3⟩ : DB).rows, u.email ≠ "") ∧
    (updateUser ⟨[⟨1, "A", "a@x", "p1", "PROFESSOR", none, 0, 0⟩,
        ⟨2, "B", "b@x", "p2", "PROFESSOR", none, 1, 1⟩], 3⟩ "1"
      ⟨none, some "b@x", none, none, .undef⟩ 5).1 = .error .emailInUse ∧
    (updateUser ⟨[⟨1, "A", "a@x", "p1", "PROFESSOR", none, 0, 0⟩,
        ⟨2, "B", "b@x", "p2", "PROFESSOR", none, 1, 1⟩], 3⟩ "1"
      ⟨none, some "a@x", none, none, .undef⟩ 5).1 ≠ .error .emailInUse := by
  have hne : ∀ u ∈ (⟨[⟨1, "A", "a@x", "p1", "PROFESSOR", none, 0, 0⟩,
      ⟨2, "B", "b@x", "p2", "PROFESSOR", none, 1, 1⟩], 3⟩ : DB).rows, u.email ≠ "" := by
    decide
  refine ⟨hne, ?_, ?_⟩
  · exact (updateUser_error_spec _ "1" ⟨none, some "b@x", none, none, .undef⟩ 5 hne).1.2
      ⟨by decide, ⟨1, "A", "a@x", "p1", "PROFESSOR", none, 0, 0⟩, by decide, "b@x", rfl,
        by decide, ⟨2, "B", "b@x", "p2", "PROFESSOR", none, 1, 1⟩, by decide, by decide, rfl⟩
  · exact (updateUser_error_spec _ "1" ⟨none, some "a@x", none, none, .undef⟩ 5 hne).2.1
      ⟨1, "A", "a@x", "p1", "PROFESSOR", none, 0, 0⟩ (by decide) rfl

/-- C5 counterexample: a payload that explicitly provides nome as the
empty string is not merged — the stored and returned name stay "A"
instead of becoming "", so update does not merge every explicitly-provided
field. -/
theorem update_merge_claim_cex :
    (⟨some "", none, none, none, .undef⟩ : Payload).nome = some "" ∧
    ((updateUser ⟨[⟨1, "A", "a@x", "p1", "PROFESSOR", none, 0, 0⟩], 2⟩ "1"
        ⟨some "", none, none, none, .undef⟩ 5).1).map (fun v => v.nome) = .ok "A" ∧
    ((updateUser ⟨[⟨1, "A", "a@x", "p1", "PROFESSOR", none, 0, 0⟩], 2⟩ "1"
        ⟨some "", none, none, none, .undef⟩ 5).2.rows.map (fun u => u.nome)) = ["A"] ∧
    "A" ≠ "" := by
  refine ⟨rfl, ?_, ?_, by decide⟩ <;> rfl

/-- C5 (amended): for every existing user and every update payload, update
merges exactly the fields provided with a truthy (non-empty) value among
nome, email, senha, papel — a field provided as the empty string is
treated as not provided — while foto is merged whenever explicitly
provided, even as null; updatedAt is refreshed and id/createdAt are
untouched; only the matching row is rewritten; an update with an empty or
absent body leaves all fields except updatedAt unchanged. -/
theorem updateUser_merge_spec (db : DB) (s : String) (p : Payload) (now : Nat) (ex : User)
    (h : invalidId s = false) (hf : findById db (parseIntJS s) = some ex)
    (hc : emailConflict db ex p = false) :
    ∃ merged : User,
      (updateUser db s p now).1 = .ok (viewUOf merged) ∧
      (updateUser db s p now).2.rows =
        db.rows.map (fun u => if matchesId (parseIntJS s) u then merged else u) ∧
      merged.id = ex.id ∧ merged.createdAt = ex.createdAt ∧ merged.updatedAt = now ∧
      ((p.nome = none ∨ p.nome = some "") → merged.nome = ex.nome) ∧
      (∀ t, p.nome = some t → t ≠ "" → merged.nome = t) ∧
      ((p.email = none ∨ p.email = some "") → merged.email = ex.email) ∧
      (∀ t, p.email = some t → t ≠ "" → merged.email = t) ∧
      ((p.senha = none ∨ p.senha = some "") → merged.senha = ex.senha) ∧
      (∀ t, p.senha = some t → t ≠ "" → merged.senha = t) ∧
      ((p.papel = none ∨ p.papel = some "") → merged.papel = ex.papel) ∧
      (∀ t, p.papel = some t → t ≠ "" → merged.papel = t) ∧
      (p.foto = .undef → merged.foto = ex.foto) ∧
      (p.foto = .null → merged.foto = none) ∧
      (∀ t, p.foto = .str t → merged.foto = some t) ∧
      (p = {} → merged = { ex with updatedAt := now }) := by
  refine ⟨mergeRow ex p now, ?_, ?_, rfl, rfl, rfl, ?_, ?_, ?_, ?_, ?_, ?_, ?_, ?_,
    ?_, ?_, ?_, ?_⟩
  · rw [updateUser_eq_ok h hf hc]
  · rw [updateUser_eq_ok h hf hc]
  · rintro (hn | hn) <;> simp [mergeRow, mergeT, hn]
  · intro t hn ht
    simp [mergeRow, mergeT, hn, ht]
  · rintro (hn | hn) <;> simp [mergeRow, mergeT, hn]
  · intro t hn ht
    simp [mergeRow, mergeT, hn, ht]
  · rintro (hn | hn) <;> simp [mergeRow, mergeT, hn]
  · intro t hn ht
    simp [mergeRow, mergeT, hn, ht]
  · rintro (hn | hn) <;> simp [mergeRow, mergeT, hn]
  · intro t hn ht
    simp [mergeRow, mergeT, hn, ht]
  · intro hn
    simp [mergeRow, mergeFoto, hn]
  · intro hn
    simp [mergeRow, mergeFoto, hn]
  · intro t hn
    simp [mergeRow, mergeFoto, hn]
  · intro hp
    subst hp
    rfl

/-- C5 witness: updating a user with a body that only sets foto to null
keeps every field except foto and updatedAt; the empty body keeps
everything but updatedAt. -/
theorem updateUser_merge_spec_witness :
    invalidId "1" = false ∧
    (updateUser ⟨[⟨1, "A", "a@x", "p1", "PROFESSOR", some "f.png", 0, 0⟩], 2⟩ "1"
      ⟨none, none, none, none, .null⟩ 7).1 =
      .ok ⟨1, "A", "a@x", "PROFESSOR", none, 0, 7⟩ ∧
    (updateUser ⟨[⟨1, "A", "a@x", "p1", "PROFESSOR", some "f.png", 0, 0⟩], 2⟩ "1" {} 9).1 =
      .ok ⟨1, "A", "a@x", "PROFESSOR", some "f.png", 0, 9⟩ := by
  have h1 := updateUser_merge_spec ⟨[⟨1, "A", "a@x", "p1", "PROFESSOR", some "f.png", 0, 0⟩], 2⟩
    "1" ⟨none, none, none, none, .null⟩ 7 ⟨1, "A", "a@x", "p1", "PROFESSOR", some "f.png", 0, 0⟩
    (by decide) (by decide) (by decide)
  have h2 := updateUser_merge_spec ⟨[⟨1, "A", "a@x", "p1", "PROFESSOR", some "f.png", 0, 0⟩], 2⟩
    "1" {} 9 ⟨1, "A", "a@x", "p1", "PROFESSOR", some "f.png", 0, 0⟩
    (by decide) (by decide) (by decide)
  obtain ⟨m1, hm1, -, hid1, hca1, hua1, hn1, -, he1, -, -, -, hp1, -, -, hf1, -, -⟩ := h1
  obtain ⟨m2, hm2, -, -, -, -, -, -, -, -, -, -, -, -, -, -, -, hall2⟩ := h2
  constructor
  · decide
  constructor
  · rw [hm1]
    have hview : viewUOf m1 = ⟨1, "A", "a@x", "PROFESSOR", none, 0, 7⟩ := by
      simp [viewUOf, hid1, hca1, hua1, hn1 (Or.inl rfl), he1 (Or.inl rfl),
        hp1 (Or.inl rfl), hf1 rfl]
    rw [hview]
  · rw [hm2, hall2 rfl]
    rfl

/-- C7: delete(id) validates the id, fails with NotFound when no row
exists, and otherwise captures the {id, nome, email} snapshot of the found
row before deleting it, removes exactly the rows matching the id, returns
the captured snapshot, and a subsequent getById on the same id yields the
not-found sentinel. -/
theorem deleteUser_spec (db : DB) (s : String) :
    (invalidId s = true → deleteUser db s = (.error .invalidInput, db)) ∧
    (invalidId s = false → findById db (parseIntJS s) = none →
      deleteUser db s = (.error .notFound, db)) ∧
    (∀ u, invalidId s = false → findById db (parseIntJS s) = some u →
      u ∈ db.rows ∧
      (deleteUser db s).1 = .ok ⟨u.id, u.nome, u.email⟩ ∧
      (deleteUser db s).2.rows =
        db.rows.filter (fun v => !(matchesId (parseIntJS s) v)) ∧
      getUserById (deleteUser db s).2 s = .ok none) := by
  refine ⟨?_, ?_, ?_⟩
  · intro h
    simp [deleteUser, h]
  · intro h hf
    simp [deleteUser, h, hf]
  · intro u h hf
    have hf' : List.find? (matchesId (parseIntJS s)) db.rows = some u := hf
    refine ⟨List.mem_of_find?_eq_some hf', ?_, ?_, ?_⟩
    · simp [deleteUser, h, findById, hf', snapOf]
    · simp [deleteUser, h, findById, hf']
    · simp [getUserById, deleteUser, h, findById, hf']

/-- C7 witness: the theorem applied to a one-row table at id "1". -/
theorem deleteUser_spec_witness :
    invalidId "1" = false ∧
    findById ⟨[⟨1, "A", "a@x", "p", "PROFESSOR", none, 0, 0⟩], 2⟩ (parseIntJS "1") =
      some ⟨1, "A", "a@x", "p", "PROFESSOR", none, 0, 0⟩ ∧
    (deleteUser ⟨[⟨1, "A", "a@x", "p", "PROFESSOR", none, 0, 0⟩], 2⟩ "1").1 =
      .ok ⟨1, "A", "a@x"⟩ ∧
    getUserById (deleteUser ⟨[⟨1, "A", "a@x", "p", "PROFESSOR", none, 0, 0⟩], 2⟩ "1").2 "1" =
      .ok none := by
  have h := (deleteUser_spec ⟨[⟨1, "A", "a@x", "p", "PROFESSOR", none, 0, 0⟩], 2⟩ "1").2.2
    ⟨1, "A", "a@x", "p", "PROFESSOR", none, 0, 0⟩ (by decide) (by decide)
  exact ⟨by decide, by decide, h.2.1, h.2.2.2⟩

/-- C8 counterexample: creating a user with papel "GESTOR" stores and
returns "GESTOR", which is neither ADMIN nor PROFESSOR — the service and
the schema (papel is TEXT without a CHECK constraint) enforce no
enumeration. -/
theorem role_enum_cex :
    ((createUser ⟨[], 1⟩ ⟨some "A", some "a@x.com", some "s1", some "GESTOR", .undef⟩ 0).2.rows.map
      (fun u => u.papel)) = ["GESTOR"] ∧
    ((createUser ⟨[], 1⟩ ⟨some "A", some "a@x.com", some "s1", some "GESTOR", .undef⟩ 0).1).map
      (fun v => v.papel) = .ok "GESTOR" ∧
    ¬("GESTOR" = "ADMIN" ∨ "GESTOR" = "PROFESSOR") := by
  refine ⟨rfl, rfl, by decide⟩

/-- C8 (amended): the stored role is PROFESSOR when papel is omitted or
provided empty at creation, and otherwise it is the provided string stored
verbatim; update overwrites the role only with a truthy provided value;
membership in the set ADMIN/PROFESSOR is not enforced. -/
theorem role_spec (db : DB) (p : Payload) (now : Nat) (s : String) (ex : User) :
    (∀ v : UserView, (createUser db p now).1 = .ok v →
      ((p.papel = none ∨ p.papel = some "") → v.papel = "PROFESSOR") ∧
      (∀ r, p.papel = some r → r ≠ "" → v.papel = r)) ∧
    (invalidId s = false → findById db (parseIntJS s) = some ex →
      emailConflict db ex p = false →
      ∀ v : UserViewU, (updateUser db s p now).1 = .ok v →
        ((p.papel = none ∨ p.papel = some "") → v.papel = ex.papel) ∧
        (∀ r, p.papel = some r → r ≠ "" → v.papel = r)) := by
  constructor
  · intro v hv
    obtain ⟨nome, email, senha, -, -, -, -, -, -, -, hveq⟩ := createUser_ok_fields hv
    subst hveq
    constructor
    · rintro (hp | hp) <;> simp [viewOf, orDefault, hp]
    · intro r hp hr
      simp [viewOf, orDefault, hp, hr]
  · intro h hf hc v hv
    rw [updateUser_eq_ok h hf hc] at hv
    simp only [] at hv
    have hveq : v = viewUOf (mergeRow ex p now) := by
      exact (Except.ok.inj hv).symm
    subst hveq
    constructor
    · rintro (hp | hp) <;> simp [viewUOf, mergeRow, mergeT, hp]
    · intro r hp hr
      simp [viewUOf, mergeRow, mergeT, hp, hr]

/-- C8 witness: the theorem applied to a create without papel (stored role
PROFESSOR) and an update that sets papel to ADMIN. -/
theorem role_spec_witness :
    (createUser ⟨[], 1⟩ ⟨some "A", some "a@x.com", some "s1", none, .undef⟩ 0).1 =
      .ok ⟨1, "A", "a@x.com", "PROFESSOR", none, 0⟩ ∧
    (⟨1, "A", "a@x.com", "PROFESSOR", none, 0⟩ : UserView).papel = "PROFESSOR" ∧
    (updateUser ⟨[⟨1, "A", "a@x", "p1", "PROFESSOR", none, 0, 0⟩], 2⟩ "1"
      ⟨none, none, none, some "ADMIN", .undef⟩ 5).1 =
      .ok ⟨1, "A", "a@x", "ADMIN", none, 0, 5⟩ ∧
    (⟨1, "A", "a@x", "ADMIN", none, 0, 5⟩ : UserViewU).papel = "ADMIN" := by
  refine ⟨rfl, ?_, rfl, ?_⟩
  · exact ((role_spec ⟨[], 1⟩ ⟨some "A", some "a@x.com", some "s1", none, .undef⟩ 0 "1"
      ⟨1, "A", "a@x", "p1", "PROFESSOR", none, 0, 0⟩).1
      ⟨1, "A", "a@x.com", "PROFESSOR", none, 0⟩ rfl).1 (Or.inl rfl)
  · exact ((role_spec ⟨[⟨1, "A", "a@x", "p1", "PROFESSOR", none, 0, 0⟩], 2⟩
      ⟨none, none, none, some "ADMIN", .undef⟩ 5 "1"
      ⟨1, "A", "a@x", "p1", "PROFESSOR", none, 0, 0⟩).2
      (by decide) (by decide) (by decide)
      ⟨1, "A", "a@x", "ADMIN", none, 0, 5⟩ rfl).2 "ADMIN" rfl (by decide)

/-- C10: for every creation payload in which papel or foto is present but
falsy (the empty string, or null for foto), create behaves exactly as if
the field were omitted: the whole outcome (result and new table) is the
same as with the field absent, the stored role is PROFESSOR and the stored
photo is null. -/
theorem create_falsy_defaults (db : DB) (p : Payload) (now : Nat) :
    (truthyO p.papel = false →
      createUser db p now = createUser db { p with papel := none } now) ∧
    (truthyJ p.foto = false →
      createUser db p now = createUser db { p with foto := .undef } now) ∧
    (truthyO p.papel = false → ∀ v, (createUser db p now).1 = .ok v → v.papel = "PROFESSOR") ∧
    (truthyJ p.foto = false → ∀ v, (createUser db p now).1 = .ok v → v.foto = none) := by
  obtain ⟨pn, pe, ps, pp, pf⟩ := p
  refine ⟨?_, ?_, ?_, ?_⟩
  · intro hfal
    cases pp with
    | none => rfl
    | some r =>
      have hr : r = "" := by simpa [truthyO] using hfal
      subst hr
      cases pn <;> cases pe <;> cases ps <;> rfl
  · intro hfal
    cases pf with
    | undef => rfl
    | null => cases pn <;> cases pe <;> cases ps <;> rfl
    | str r =>
      have hr : r = "" := by simpa [truthyJ] using hfal
      subst hr
      cases pn <;> cases pe <;> cases ps <;> rfl
  · intro hfal v hv
    obtain ⟨nome, email, senha, -, -, -, -, -, -, -, hveq⟩ := createUser_ok_fields hv
    subst hveq
    cases pp with
    | none => simp [viewOf, orDefault]
    | some r =>
      have hr : r = "" := by simpa [truthyO] using hfal
      subst hr
      simp [viewOf, orDefault]
  · intro hfal v hv
    obtain ⟨nome, email, senha, -, -, -, -, -, -, -, hveq⟩ := createUser_ok_fields hv
    subst hveq
    cases pf with
    | undef => simp [viewOf, jsOrNull]
    | null => simp [viewOf, jsOrNull]
    | str r =>
      have hr : r = "" := by simpa [truthyJ] using hfal
      subst hr
      simp [viewOf, jsOrNull]

/-- C10 witness: the theorem applied to a payload providing papel as the
empty string and foto as the empty string. -/
theorem create_falsy_defaults_witness :
    truthyO (some "") = false ∧ truthyJ (.str "") = false ∧
    createUser ⟨[], 1⟩ ⟨some "A", some "a@x.com", some "s1", some "", .str ""⟩ 0 =
      createUser ⟨[], 1⟩ ⟨some "A", some "a@x.com", some "s1", none, .str ""⟩ 0 ∧
    createUser ⟨[], 1⟩ ⟨some "A", some "a@x.com", some "s1", some "", .str ""⟩ 0 =
      createUser ⟨[], 1⟩ ⟨some "A", some "a@x.com", some "s1", some "", .undef⟩ 0 ∧
    (⟨1, "A", "a@x.com", "PROFESSOR", none, 0⟩ : UserView).papel = "PROFESSOR" ∧
    (⟨1, "A", "a@x.com", "PROFESSOR", none, 0⟩ : UserView).foto = none := by
  have h := create_falsy_defaults ⟨[], 1⟩
    ⟨some "A", some "a@x.com", some "s1", some "", .str ""⟩ 0
  refine ⟨by decide, by decide, h.1 (by decide), h.2.1 (by decide), ?_, ?_⟩
  · exact h.2.2.1 (by decide) ⟨1, "A", "a@x.com", "PROFESSOR", none, 0⟩ rfl
  · exact h.2.2.2 (by decide) ⟨1, "A", "a@x.com", "PROFESSOR", none, 0⟩ rfl

end UserApi
